import Mathlib

/-!
Shallow embedding of the voice-assistant turn pipeline of src/app.py
(streamlit app Project Neon).  The pure fragments of the Python code are
translated into executable Lean functions; the rerun-driven control flow of
main (lines 196-236) is modelled as a step function on the session state
voice_state, taking the user input of the rerun (which button, if any,
triggered it) together with an environment fixing the outcome of each
external interaction (audio frames received, recognition result, dialogue
result).  External service invocations performed during a rerun are recorded
in an explicit call trace.
-/

namespace ProjectNeon

abbrev SvcErr := String

/-- One audio frame, as the list of its samples (app.py frame.to_ndarray). -/
abbrev Frame := List ℚ

/-! ### PCM conversion, app.py line 108: scaled = np.int16(audio_data * 32767) -/

/-- Truncation toward zero, the rounding mode of the numpy float-to-int cast. -/
def truncQ (q : ℚ) : ℤ := if 0 ≤ q then ⌊q⌋ else ⌈q⌉

/-- Two-complement wrap of an integer into the int16 range. -/
def int16ofInt (z : ℤ) : ℤ := (z + 32768) % 65536 - 32768

/-- numpy np.int16 applied to a real scalar: truncate toward zero, then wrap. -/
def npInt16 (q : ℚ) : ℤ := int16ofInt (truncQ q)

/-- One sample of np.int16(audio_data * 32767) (app.py line 108). -/
def pcmEncode (x : ℚ) : ℤ := npInt16 (x * 32767)

/-- Decoding a 16-bit PCM sample back to a real number. -/
def pcmDecode (z : ℤ) : ℚ := (z : ℚ) / 32767

/-! ### record_audio, app.py lines 80-101

The webrtc receiver is modelled by an optional list of frame-fetch results:
none models a falsy ctx.audio_receiver; each list element is one iteration
of the for-loop over get_frames, which either yields a frame or raises. -/

abbrev CaptureEnv := Option (List (Except SvcErr Frame))

/-- The for-loop of app.py lines 95-96: collect frames in arrival order,
re-raising the first exception met while fetching or converting a frame. -/
def gather : List (Except SvcErr Frame) → Except SvcErr (List Frame)
  | [] => Except.ok []
  | Except.error e :: _ => Except.error e
  | Except.ok f :: rest =>
    match gather rest with
    | Except.error e => Except.error e
    | Except.ok fs => Except.ok (f :: fs)

/-- The try-block body of record_audio (app.py lines 94-98): run the frame
loop, and if at least one frame arrived return the concatenation. -/
def recordTryBlock (frames : List (Except SvcErr Frame)) :
    Except SvcErr (Option Frame) :=
  match gather frames with
  | Except.error e => Except.error e
  | Except.ok fs => if fs.isEmpty then Except.ok none else Except.ok (some fs.flatten)

/-- record_audio (app.py lines 80-101) in an exception-transparent view: the
result is an Except so that an uncaught exception would be visible as an
error value.  The except-Exception clause (lines 99-100) catches every
exception from the try block, emits the "Recording error" message via
st.error and falls through to the final return None. -/
def record_audioE (env : CaptureEnv) : Except SvcErr (Option Frame × List String) :=
  match env with
  | none => Except.ok (none, [])
  | some frames =>
    match recordTryBlock frames with
    | Except.ok r => Except.ok (r, [])
    | Except.error e => Except.ok (none, ["Recording error: " ++ e])

/-- record_audio as the pure function the state machine consumes: the buffer
(or none) together with the list of error messages displayed. -/
def record_audio (env : CaptureEnv) : Option Frame × List String :=
  match record_audioE env with
  | Except.ok v => v
  | Except.error _ => (none, [])

/-! ### transcribe_audio, app.py lines 103-124 -/

/-- Outcome of the os.unlink call on the temporary WAV (app.py line 116). -/
inductive UnlinkOutcome
  | ok
  | permissionDenied
  | otherError
deriving DecidableEq

/-- Environment of one transcribe_audio invocation: whether writing the WAV
raises (scaling plus scipy.io.wavfile.write, lines 108-110), the result of
the whisper recognition call (lines 112-113, a python dict modelled as an
association list), and how the unlink behaves. -/
structure TranscribeEnv where
  wavWrite : Except SvcErr Unit
  recognize : Except SvcErr (List (String × String))
  unlink : UnlinkOutcome

/-- Observable outcome of transcribe_audio: the returned text (none models
the python None returned by the outer except clause), the scaled PCM data,
whether the recognition engine was invoked, whether deletion of the
temporary WAV file was ever attempted before returning, and whether deletion
was deferred to process exit via atexit. -/
structure TranscribeOut where
  text : Option String
  scaled : List ℤ
  recognitionCalled : Bool
  deletionAttempted : Bool
  deferredToExit : Bool
deriving DecidableEq

/-- transcribe_audio (app.py lines 103-124).  The temporary file is created
by NamedTemporaryFile(delete := False) before any of the modelled failure
points.  Note that the outer except clause (lines 122-124) returns None
without reaching the unlink when the WAV write or the recognition call
raises, and that the text extraction result["text"] happens after the
unlink, so an extraction failure still has the file deleted. -/
def transcribe_audio (audio : List ℚ) (env : TranscribeEnv) : TranscribeOut :=
  let scaled := audio.map pcmEncode
  match env.wavWrite with
  | Except.error _ => ⟨none, scaled, false, false, false⟩
  | Except.ok _ =>
    match env.recognize with
    | Except.error _ => ⟨none, scaled, true, false, false⟩
    | Except.ok result =>
      match env.unlink with
      | UnlinkOutcome.permissionDenied =>
        match result.lookup "text" with
        | some t => ⟨some t, scaled, true, true, true⟩
        | none => ⟨none, scaled, true, true, true⟩
      | UnlinkOutcome.otherError => ⟨none, scaled, true, true, false⟩
      | UnlinkOutcome.ok =>
        match result.lookup "text" with
        | some t => ⟨some t, scaled, true, true, false⟩
        | none => ⟨none, scaled, true, true, false⟩

/-! ### The turn state machine, app.py lines 140-236 -/

/-- The voice_state session dictionary (app.py lines 144-150). -/
structure VoiceState where
  recording : Bool
  processing : Bool
  user_text : Option String
  gpt_response : Option String
deriving DecidableEq

/-- The freshly initialised voice_state (app.py lines 145-150, also the
reset value at lines 230-235). -/
def initState : VoiceState := ⟨false, false, none, none⟩

/-- Which button click, if any, triggered the rerun of the script. -/
inductive UiInput
  | noClick
  | start
  | play
  | reset
deriving DecidableEq

inductive Role
  | system
  | user
deriving DecidableEq

/-- One chat message of the dialogue request (app.py lines 216-219). -/
structure Msg where
  role : Role
  content : String
deriving DecidableEq

/-- The fixed system instruction of the dialogue call (app.py line 217). -/
def personaText : String := "You are Project Neon..."

/-- One recorded invocation of an external service during a rerun. -/
inductive Call
  | capture
  | recognition
  | dialogue (msgs : List Msg)
  | synthesis (text : String)
deriving DecidableEq

inductive Service
  | capture
  | recognition
  | dialogue
  | synthesis
deriving DecidableEq

def Call.service : Call → Service
  | Call.capture => Service.capture
  | Call.recognition => Service.recognition
  | Call.dialogue _ => Service.dialogue
  | Call.synthesis _ => Service.synthesis

/-- Environment of one rerun: outcomes of the external interactions that the
rerun would perform if it reaches them. -/
structure StepEnv where
  capture : CaptureEnv
  transcribe : TranscribeEnv
  dialogue : Except SvcErr String
  synth : Except SvcErr Unit

/-- One rerun of the voice column of main (app.py lines 196-236), as a step
function from the stored voice_state and the triggering click to the updated
voice_state and the trace of external service invocations.  Each branch that
calls st.experimental_rerun ends the run, which the translation reflects by
returning there.  The Start Recording button is disabled while processing is
set (line 196); an uncaught exception of the dialogue call (lines 214-220)
aborts the run with the state unchanged. -/
def mainStep (s : VoiceState) (inp : UiInput) (env : StepEnv) :
    VoiceState × List Call :=
  if s.processing = false ∧ inp = UiInput.start then
    ({ s with recording := true, processing := true }, [])
  else if s.recording then
    match (record_audio env.capture).1 with
    | some a =>
      let tout := transcribe_audio a env.transcribe
      ({ s with user_text := tout.text, recording := false },
        Call.capture ::
          (if tout.recognitionCalled then [Call.recognition] else []))
    | none => ({ s with recording := false }, [Call.capture])
  else
    match s.user_text with
    | some t =>
      if t = "" then (s, [])
      else if s.gpt_response = none then
        match env.dialogue with
        | Except.ok r =>
          ({ s with gpt_response := some r },
            [Call.dialogue [⟨Role.system, personaText⟩, ⟨Role.user, t⟩]])
        | Except.error _ =>
          (s, [Call.dialogue [⟨Role.system, personaText⟩, ⟨Role.user, t⟩]])
      else
        match inp with
        | UiInput.play =>
          (s, [Call.synthesis ((s.gpt_response).getD "")])
        | UiInput.reset => (initState, [])
        | _ => (s, [])
    | none => (s, [])

/-- Services invoked during one rerun. -/
def calledServices (s : VoiceState) (inp : UiInput) (env : StepEnv) :
    List Service :=
  ((mainStep s inp env).2).map Call.service

/-- States of the voice_state dictionary reachable from initialisation by
any sequence of reruns. -/
inductive Reachable : VoiceState → Prop
  | init : Reachable initState
  | step (s : VoiceState) (inp : UiInput) (env : StepEnv) (h : Reachable s) :
      Reachable (mainStep s inp env).1

/-! ### Concrete environments used for witnesses and counterexamples -/

/-- An environment in which every external interaction succeeds: one frame
with a single sample arrives, recognition yields the transcript "hi", the
dialogue service replies "yo". -/
def envOk : StepEnv :=
  ⟨some [Except.ok [(1 : ℚ) / 2]],
    ⟨Except.ok (), Except.ok [("text", "hi")], UnlinkOutcome.ok⟩,
    Except.ok "yo", Except.ok ()⟩

/-- An environment whose capture window receives zero frames. -/
def envSilence : StepEnv :=
  ⟨some [],
    ⟨Except.ok (), Except.ok [("text", "hi")], UnlinkOutcome.ok⟩,
    Except.ok "yo", Except.ok ()⟩

/-- An environment in which the dialogue service call raises. -/
def envDiaFail : StepEnv :=
  ⟨some [Except.ok [(1 : ℚ) / 2]],
    ⟨Except.ok (), Except.ok [("text", "hi")], UnlinkOutcome.ok⟩,
    Except.error "boom", Except.ok ()⟩

lemma reach_of_eq (s t : VoiceState) (inp : UiInput) (env : StepEnv)
    (h : Reachable s) (he : (mainStep s inp env).1 = t) : Reachable t :=
  he ▸ Reachable.step s inp env h

/-- After clicking Start Recording in the fresh state. -/
lemma reach_pending : Reachable ⟨true, true, none, none⟩ :=
  reach_of_eq initState ⟨true, true, none, none⟩ UiInput.start envOk
    Reachable.init (by decide)

/-- After the rerun that captured and transcribed successfully. -/
lemma reach_gotText : Reachable ⟨false, true, some "hi", none⟩ :=
  reach_of_eq ⟨true, true, none, none⟩ ⟨false, true, some "hi", none⟩
    UiInput.noClick envOk reach_pending (by decide)

/-- After the rerun that stored the dialogue reply: the finished turn. -/
lemma reach_done : Reachable ⟨false, true, some "hi", some "yo"⟩ :=
  reach_of_eq ⟨false, true, some "hi", none⟩ ⟨false, true, some "hi", some "yo"⟩
    UiInput.noClick envOk reach_gotText (by decide)

/-! ### The state invariant maintained by the rerun step -/

/-- Invariant of voice_state: a cleared processing flag means a fully blank
turn, an active recording means no stage output exists yet, and a stored
reply presupposes a truthy transcript. -/
def Inv (s : VoiceState) : Prop :=
  (s.processing = false →
    s.recording = false ∧ s.user_text = none ∧ s.gpt_response = none)
  ∧ (s.recording = true → s.user_text = none ∧ s.gpt_response = none)
  ∧ (∀ r, s.gpt_response = some r → ∃ t, s.user_text = some t ∧ t ≠ "")

lemma inv_init : Inv initState := by
  refine ⟨?_, ?_, ?_⟩
  · intro _; exact ⟨rfl, rfl, rfl⟩
  · intro h; simp [initState] at h
  · intro r h; simp [initState] at h

lemma inv_step (s : VoiceState) (inp : UiInput) (env : StepEnv)
    (h : Inv s) : Inv (mainStep s inp env).1 := by
  obtain ⟨h1, h2, h3⟩ := h
  unfold mainStep
  by_cases hst : (s.processing = false ∧ inp = UiInput.start)
  · rw [if_pos hst]
    obtain ⟨hr0, hu0, hg0⟩ := h1 hst.1
    dsimp only
    refine ⟨?_, ?_, ?_⟩
    · intro hp; cases hp
    · intro _; exact ⟨hu0, hg0⟩
    · intro r hr; rw [hg0] at hr; cases hr
  · rw [if_neg hst]
    cases hrec : s.recording with
    | true =>
      obtain ⟨hu0, hg0⟩ := h2 hrec
      rw [if_pos rfl]
      cases haud : (record_audio env.capture).1 with
      | none =>
        dsimp only
        refine ⟨?_, ?_, ?_⟩
        · intro hp
          obtain ⟨hc, -⟩ := h1 hp
          rw [hrec] at hc; cases hc
        · intro hr; cases hr
        · intro r hr; rw [hg0] at hr; cases hr
      | some a =>
        dsimp only
        refine ⟨?_, ?_, ?_⟩
        · intro hp
          obtain ⟨hc, -⟩ := h1 hp
          rw [hrec] at hc; cases hc
        · intro hr; cases hr
        · intro r hr; rw [hg0] at hr; cases hr
    | false =>
      rw [if_neg (by simp)]
      cases hut : s.user_text with
      | none => dsimp only; exact ⟨h1, h2, h3⟩
      | some t =>
        dsimp only
        by_cases hte : t = ""
        · rw [if_pos hte]; exact ⟨h1, h2, h3⟩
        · rw [if_neg hte]
          by_cases hg : s.gpt_response = none
          · rw [if_pos hg]
            cases hd : env.dialogue with
            | ok r =>
              dsimp only
              refine ⟨?_, ?_, ?_⟩
              · intro hp
                obtain ⟨-, hu1, -⟩ := h1 hp
                rw [hut] at hu1; cases hu1
              · intro hr; cases hr
              · intro r2 hr2; exact ⟨t, rfl, hte⟩
            | error e => dsimp only; exact ⟨h1, h2, h3⟩
          · rw [if_neg hg]
            cases inp with
            | play => dsimp only; exact ⟨h1, h2, h3⟩
            | reset => dsimp only; exact inv_init
            | noClick => dsimp only; exact ⟨h1, h2, h3⟩
            | start => dsimp only; exact ⟨h1, h2, h3⟩

lemma reachable_inv (s : VoiceState) (h : Reachable s) : Inv s := by
  induction h with
  | init => exact inv_init
  | step s inp env hs ih => exact inv_step s inp env ih

/-! ### Which services a rerun can invoke, by branch of the state machine -/

lemma services_recording (s : VoiceState) (env : StepEnv) (h : s.recording = true) :
    (∀ k, k ∈ calledServices s UiInput.noClick env →
        k = Service.capture ∨ k = Service.recognition)
    ∧ (mainStep s UiInput.noClick env).1.recording = false := by
  unfold calledServices mainStep
  rw [if_neg (by simp), if_pos h]
  cases haud : (record_audio env.capture).1 with
  | none =>
    dsimp only
    refine ⟨?_, rfl⟩
    intro k hk
    simp [Call.service] at hk
    exact Or.inl hk
  | some a =>
    dsimp only
    refine ⟨?_, rfl⟩
    intro k hk
    by_cases hrc : (transcribe_audio a env.transcribe).recognitionCalled = true
    · rw [if_pos hrc] at hk
      simp [Call.service] at hk
      exact hk
    · rw [if_neg hrc] at hk
      simp [Call.service] at hk
      exact Or.inl hk

lemma services_nonrecording (s : VoiceState) (env : StepEnv) (h : s.recording = false) :
    ∀ k, k ∈ calledServices s UiInput.noClick env → k = Service.dialogue := by
  unfold calledServices mainStep
  rw [if_neg (by simp), if_neg (by simp [h])]
  cases hut : s.user_text with
  | none => intro k hk; simp at hk
  | some t =>
    dsimp only
    by_cases hte : t = ""
    · rw [if_pos hte]; intro k hk; simp at hk
    · rw [if_neg hte]
      by_cases hg : s.gpt_response = none
      · rw [if_pos hg]
        cases hd : env.dialogue with
        | ok r => intro k hk; simp [Call.service] at hk; exact hk
        | error e => intro k hk; simp [Call.service] at hk; exact hk
      · rw [if_neg hg]
        intro k hk; simp at hk

lemma services_idle (s : VoiceState) (env : StepEnv) (h : s.recording = false)
    (ht : s.user_text = none) :
    calledServices s UiInput.noClick env = [] := by
  unfold calledServices mainStep
  rw [if_neg (by simp), if_neg (by simp [h]), ht]
  rfl

lemma services_reply_stored (s : VoiceState) (env : StepEnv) (h : s.recording = false)
    (hg : s.gpt_response ≠ none) :
    calledServices s UiInput.noClick env = [] := by
  unfold calledServices mainStep
  rw [if_neg (by simp), if_neg (by simp [h])]
  cases hut : s.user_text with
  | none => rfl
  | some t =>
    dsimp only
    by_cases hte : t = ""
    · rw [if_pos hte]
      rfl
    · rw [if_neg hte, if_neg hg]
      rfl

/-! ### Claims -/

/-- Claim C6 (confirmed): in every reachable state of the voice_state
dictionary, gpt_response is non-null only if user_text is non-null: no
rerun ever stores a reply for a turn that has no transcript. -/
theorem c6_reply_requires_transcript :
    ∀ s : VoiceState, Reachable s → s.gpt_response ≠ none → s.user_text ≠ none := by
  intro s hs hg
  obtain ⟨-, -, h3⟩ := reachable_inv s hs
  cases hgr : s.gpt_response with
  | none => exact absurd hgr hg
  | some r =>
    obtain ⟨t, hut, -⟩ := h3 r hgr
    rw [hut]
    simp

theorem c6_witness :
    (⟨false, true, some "hi", some "yo"⟩ : VoiceState).user_text ≠ none :=
  c6_reply_requires_transcript ⟨false, true, some "hi", some "yo"⟩ reach_done
    (by decide)

/-- Claim C5 counterexample: after a completed turn (reply stored, reachable
by start, capture, transcription and dialogue all succeeding) the turn is
idle awaiting only user-triggered playback or reset, yet the processing flag
is still true, refuting that both flags are false once pipeline work has
finished. -/
theorem c5_counterexample :
    Reachable ⟨false, true, some "hi", some "yo"⟩
    ∧ (⟨false, true, some "hi", some "yo"⟩ : VoiceState).gpt_response ≠ none
    ∧ (⟨false, true, some "hi", some "yo"⟩ : VoiceState).processing = true :=
  ⟨reach_done, by decide, rfl⟩

/-- Claim C5 (amended): once a turn has finished (reply stored), the
recording flag is false but the processing flag remains true, serving as a
lock that keeps the Start Recording button disabled; both flags become false
only through the explicit Start New Conversation reset, which restores the
initial state. -/
theorem c5_amended_processing_lock :
    ∀ s : VoiceState, Reachable s → s.gpt_response ≠ none →
      (s.recording = false ∧ s.processing = true)
      ∧ ∀ env : StepEnv, (mainStep s UiInput.reset env).1 = initState := by
  intro s hs hg
  obtain ⟨h1, h2, h3⟩ := reachable_inv s hs
  cases hgr : s.gpt_response with
  | none => exact absurd hgr hg
  | some r =>
    obtain ⟨t, hut, hte⟩ := h3 r hgr
    have hrec : s.recording = false := by
      cases hr : s.recording
      · rfl
      · obtain ⟨-, hg0⟩ := h2 hr
        rw [hg0] at hgr; cases hgr
    have hproc : s.processing = true := by
      cases hp : s.processing
      · obtain ⟨-, -, hg0⟩ := h1 hp
        rw [hg0] at hgr; cases hgr
      · rfl
    refine ⟨⟨hrec, hproc⟩, ?_⟩
    intro env
    unfold mainStep
    rw [if_neg (by simp), if_neg (by simp [hrec]), hut]
    dsimp only
    rw [if_neg hte, if_neg (by simp [hgr])]

theorem c5_witness :
    ((⟨false, true, some "hi", some "yo"⟩ : VoiceState).recording = false
      ∧ (⟨false, true, some "hi", some "yo"⟩ : VoiceState).processing = true)
    ∧ ∀ env : StepEnv,
        (mainStep ⟨false, true, some "hi", some "yo"⟩ UiInput.reset env).1
          = initState :=
  c5_amended_processing_lock ⟨false, true, some "hi", some "yo"⟩ reach_done
    (by decide)

/-- Claim C1 (confirmed): re-invoking the control flow while processing is
set and no stage has completed never issues a second call to any external
service.  First, any service invoked by a rerun from such a state is not
invoked again by the immediately following rerun (capture and recognition
run only while the recording flag is pending, which that very rerun clears).
Second, the dialogue service is never queried when a reply is already
stored.  Third, clicking the disabled Start Recording button while
processing is set is a no-op: the rerun behaves exactly like one with no
click. -/
theorem c1_idempotent_reentry :
    (∀ (s : VoiceState) (env1 env2 : StepEnv),
        s.processing = true → s.user_text = none → s.gpt_response = none →
        ∀ k, k ∈ calledServices s UiInput.noClick env1 →
          k ∉ calledServices (mainStep s UiInput.noClick env1).1 UiInput.noClick env2)
    ∧ (∀ (s : VoiceState) (env : StepEnv), s.gpt_response ≠ none →
        Service.dialogue ∉ calledServices s UiInput.noClick env)
    ∧ (∀ (s : VoiceState) (env : StepEnv), s.processing = true →
        mainStep s UiInput.start env = mainStep s UiInput.noClick env) := by
  refine ⟨?_, ?_, ?_⟩
  · intro s env1 env2 hp ht hg k hk1 hk2
    cases hrec : s.recording with
    | false =>
      rw [services_idle s env1 hrec ht] at hk1
      simp at hk1
    | true =>
      obtain ⟨hsub, hrec2⟩ := services_recording s env1 hrec
      have hin1 := hsub k hk1
      have hin2 := services_nonrecording _ env2 hrec2 k hk2
      cases hin1 with
      | inl h => rw [h] at hin2; exact absurd hin2 (by decide)
      | inr h => rw [h] at hin2; exact absurd hin2 (by decide)
  · intro s env hg hmem
    cases hrec : s.recording with
    | true =>
      obtain ⟨hsub, -⟩ := services_recording s env hrec
      cases hsub _ hmem with
      | inl h => exact absurd h (by decide)
      | inr h => exact absurd h (by decide)
    | false =>
      rw [services_reply_stored s env hrec hg] at hmem
      simp at hmem
  · intro s env hp
    obtain ⟨rec, proc, ut, gr⟩ := s
    dsimp only at hp
    subst hp
    cases rec with
    | true => rfl
    | false =>
      cases ut with
      | none => rfl
      | some t =>
        by_cases hte : t = ""
        · simp [mainStep, hte]
        · cases gr with
          | none => simp [mainStep, hte]
          | some g => simp [mainStep, hte]

theorem c1_witness :
    Service.capture ∈ calledServices ⟨true, true, none, none⟩ UiInput.noClick envOk
    ∧ Service.capture ∉
        calledServices (mainStep ⟨true, true, none, none⟩ UiInput.noClick envOk).1
          UiInput.noClick envOk
    ∧ Service.dialogue ∉
        calledServices ⟨false, true, some "hi", some "yo"⟩ UiInput.noClick envOk
    ∧ mainStep ⟨true, true, none, none⟩ UiInput.start envOk
        = mainStep ⟨true, true, none, none⟩ UiInput.noClick envOk := by
  refine ⟨by decide, ?_, ?_, ?_⟩
  · exact c1_idempotent_reentry.1 ⟨true, true, none, none⟩ envOk envOk rfl rfl rfl
      Service.capture (by decide)
  · exact c1_idempotent_reentry.2.1 ⟨false, true, some "hi", some "yo"⟩ envOk
      (by decide)
  · exact c1_idempotent_reentry.2.2 ⟨true, true, none, none⟩ envOk rfl

/-- Claim C7 (confirmed): whenever a rerun issues a dialogue-service call,
its message list is exactly the two-element list of the fixed persona system
message followed by the current transcript as the sole user message, and no
reply was stored yet; the request carries no other history. -/
theorem c7_single_turn_messages :
    ∀ (s : VoiceState) (inp : UiInput) (env : StepEnv) (msgs : List Msg),
      Call.dialogue msgs ∈ (mainStep s inp env).2 →
      ∃ t, s.user_text = some t ∧ t ≠ "" ∧ s.gpt_response = none
        ∧ msgs = [⟨Role.system, personaText⟩, ⟨Role.user, t⟩] := by
  intro s inp env msgs hmem
  unfold mainStep at hmem
  by_cases hst : (s.processing = false ∧ inp = UiInput.start)
  · rw [if_pos hst] at hmem
    simp at hmem
  · rw [if_neg hst] at hmem
    cases hrec : s.recording with
    | true =>
      rw [if_pos hrec] at hmem
      cases haud : (record_audio env.capture).1 with
      | none => simp [haud] at hmem
      | some a =>
        simp only [haud] at hmem
        by_cases hrc : (transcribe_audio a env.transcribe).recognitionCalled = true
        · rw [if_pos hrc] at hmem
          simp at hmem
        · rw [if_neg hrc] at hmem
          simp at hmem
    | false =>
      rw [if_neg (by simp [hrec])] at hmem
      cases hut : s.user_text with
      | none => simp [hut] at hmem
      | some t =>
        simp only [hut] at hmem
        by_cases hte : t = ""
        · rw [if_pos hte] at hmem
          simp at hmem
        · rw [if_neg hte] at hmem
          by_cases hg : s.gpt_response = none
          · rw [if_pos hg] at hmem
            cases hd : env.dialogue with
            | ok r =>
              simp only [hd] at hmem
              simp at hmem
              exact ⟨t, rfl, hte, hg, hmem⟩
            | error e =>
              simp only [hd] at hmem
              simp at hmem
              exact ⟨t, rfl, hte, hg, hmem⟩
          · rw [if_neg hg] at hmem
            cases inp with
            | play => simp at hmem
            | reset => simp at hmem
            | noClick => simp at hmem
            | start => simp at hmem

theorem c7_witness :
    ∃ t, (⟨false, true, some "hi", none⟩ : VoiceState).user_text = some t
      ∧ t ≠ "" ∧ (⟨false, true, some "hi", none⟩ : VoiceState).gpt_response = none
      ∧ [Msg.mk Role.system personaText, Msg.mk Role.user "hi"]
          = [⟨Role.system, personaText⟩, ⟨Role.user, t⟩] :=
  c7_single_turn_messages ⟨false, true, some "hi", none⟩ UiInput.noClick envOk
    [⟨Role.system, personaText⟩, ⟨Role.user, "hi"⟩] (by decide)

/-- Claim C8 (confirmed): a failing dialogue call after a successful
transcription aborts the rerun with the transcript still stored and no
reply, and the explicit Start New Conversation reset restores the initial
state, whose transcript and reply are both none. -/
theorem c8_transcript_preserved :
    (∀ (s : VoiceState) (env : StepEnv) (t : String) (e : SvcErr),
        s.recording = false → s.user_text = some t → t ≠ "" →
        s.gpt_response = none → env.dialogue = Except.error e →
        (mainStep s UiInput.noClick env).1.user_text = some t
        ∧ (mainStep s UiInput.noClick env).1.gpt_response = none)
    ∧ (∀ (s : VoiceState) (env : StepEnv),
        s.recording = false → s.gpt_response ≠ none →
        (∃ t, s.user_text = some t ∧ t ≠ "") →
        (mainStep s UiInput.reset env).1 = initState) := by
  refine ⟨?_, ?_⟩
  · intro s env t e hrec hut hte hg hd
    unfold mainStep
    rw [if_neg (by simp), if_neg (by simp [hrec]), hut]
    dsimp only
    rw [if_neg hte, if_pos hg, hd]
    exact ⟨hut, hg⟩
  · intro s env hrec hg h
    obtain ⟨t, hut, hte⟩ := h
    unfold mainStep
    rw [if_neg (by simp), if_neg (by simp [hrec]), hut]
    dsimp only
    rw [if_neg hte, if_neg hg]

theorem c8_witness :
    ((mainStep ⟨false, true, some "hi", none⟩ UiInput.noClick envDiaFail).1.user_text
        = some "hi"
      ∧ (mainStep ⟨false, true, some "hi", none⟩ UiInput.noClick
          envDiaFail).1.gpt_response = none)
    ∧ (mainStep ⟨false, true, some "hi", some "yo"⟩ UiInput.reset envOk).1
        = initState :=
  ⟨c8_transcript_preserved.1 ⟨false, true, some "hi", none⟩ envDiaFail "hi" "boom"
      rfl rfl (by decide) rfl rfl,
    c8_transcript_preserved.2 ⟨false, true, some "hi", some "yo"⟩ envOk rfl
      (by decide) ⟨"hi", rfl, by decide⟩⟩

/-- Claim C9 (code_bug evaluation): start a turn from the initial state and
let the capture window receive zero frames.  The rerun issues the capture
interaction only, never invokes recognition, and leaves the transcript none,
as the claim states; but instead of returning to an idle state ready for a
new turn, the resulting voice_state keeps processing = true and is a
fixpoint of every further rerun: the Start Recording button stays disabled,
the reset button is not rendered (it requires a truthy transcript), and no
input can ever change the state again. -/
theorem c9_silence_dead_end :
    Reachable ⟨true, true, none, none⟩
    ∧ mainStep ⟨true, true, none, none⟩ UiInput.noClick envSilence
        = (⟨false, true, none, none⟩, [Call.capture])
    ∧ (⟨false, true, none, none⟩ : VoiceState).processing = true
    ∧ ∀ (inp : UiInput) (env : StepEnv),
        mainStep ⟨false, true, none, none⟩ inp env
          = (⟨false, true, none, none⟩, []) := by
  refine ⟨reach_pending, by decide, rfl, ?_⟩
  intro inp env
  rfl

/-- Claim C2 (code_bug evaluation): the temporary WAV is deleted only on the
path where both the WAV write and the recognition call succeed.  When the
recognition call raises (second environment below) or the WAV write raises,
the outer except clause returns None with no deletion attempt, so the file
created by NamedTemporaryFile leaks; deletion is attempted on the success
path, with deferral to process exit reserved for a PermissionError. -/
theorem c2_wav_leak_on_failure :
    (transcribe_audio [(1 : ℚ) / 2]
        ⟨Except.ok (), Except.error "recognition failed",
          UnlinkOutcome.ok⟩).deletionAttempted = false
    ∧ (transcribe_audio [(1 : ℚ) / 2]
        ⟨Except.ok (), Except.error "recognition failed",
          UnlinkOutcome.ok⟩).recognitionCalled = true
    ∧ (transcribe_audio [(1 : ℚ) / 2]
        ⟨Except.error "wav write failed", Except.ok [("text", "hi")],
          UnlinkOutcome.ok⟩).deletionAttempted = false
    ∧ (transcribe_audio [(1 : ℚ) / 2]
        ⟨Except.ok (), Except.ok [("text", "hi")],
          UnlinkOutcome.ok⟩).deletionAttempted = true
    ∧ (transcribe_audio [(1 : ℚ) / 2]
        ⟨Except.ok (), Except.ok [("text", "hi")],
          UnlinkOutcome.permissionDenied⟩).deferredToExit = true := by
  refine ⟨rfl, rfl, rfl, rfl, rfl⟩

lemma gather_error_of_mem (l : List (Except SvcErr Frame)) (e : SvcErr)
    (h : Except.error e ∈ l) : ∃ d, gather l = Except.error d := by
  induction l with
  | nil => cases h
  | cons hd tl ih =>
    cases hd with
    | error d => exact ⟨d, rfl⟩
    | ok f =>
      have htl : Except.error e ∈ tl := by
        rcases List.mem_cons.mp h with h1 | h1
        · cases h1
        · exact h1
      obtain ⟨d, hd2⟩ := ih htl
      refine ⟨d, ?_⟩
      simp [gather, hd2]

/-- Claim C3 counterexample: a transport failure while receiving frames
(here the frame fetch raising "device failure") makes record_audio return
the very same none result as the zero-frames silence case, instead of
surfacing a distinct CaptureError value. -/
theorem c3_counterexample :
    (record_audio (some [Except.error "device failure"])).1 = none
    ∧ (record_audio (some ([] : List (Except SvcErr Frame)))).1 = none
    ∧ (record_audio none).1 = none := by
  refine ⟨rfl, rfl, rfl⟩

/-- Claim C3 (amended): if zero frames arrive (or no receiver exists) the
capture returns none with no error message and never raises; a transport
failure is caught inside the function, which then also returns none and is
distinguishable from silence only by the Recording error message it
displays, not by its return value, and no distinct error value is raised or
returned. -/
theorem c3_amended_silence_vs_failure :
    record_audio none = (none, [])
    ∧ record_audio (some []) = (none, [])
    ∧ (∀ (l : List (Except SvcErr Frame)) (e : SvcErr), Except.error e ∈ l →
        (record_audio (some l)).1 = none ∧ (record_audio (some l)).2 ≠ []) := by
  refine ⟨rfl, rfl, ?_⟩
  intro l e h
  obtain ⟨d, hd⟩ := gather_error_of_mem l e h
  refine ⟨?_, ?_⟩ <;> simp [record_audio, record_audioE, recordTryBlock, hd]

theorem c3_witness :
    (record_audio (some [Except.error "device failure"])).1 = none
    ∧ (record_audio (some [Except.error "device failure"])).2 ≠ [] :=
  c3_amended_silence_vs_failure.2.2 [Except.error "device failure"]
    "device failure" (by simp)

/-- Claim C10 (confirmed): record_audio is total with respect to exceptions
at its boundary: in the exception-transparent view, where the frame loop may
raise at any iteration, the function always returns an ok value (the caught
branch turns every exception into the none result), for every receiver
state, including no receiver, zero frames and a failing frame fetch. -/
theorem c10_record_audio_total :
    ∀ env : CaptureEnv, record_audioE env = Except.ok (record_audio env) := by
  intro env
  cases env with
  | none => rfl
  | some frames =>
    cases h : recordTryBlock frames with
    | ok r => simp [record_audio, record_audioE, h]
    | error e => simp [record_audio, record_audioE, h]

/-! ### The PCM round-trip bound (claim C4) -/

lemma truncQ_sub_le (q : ℚ) : |(truncQ q : ℚ) - q| ≤ 1 := by
  unfold truncQ
  by_cases h : 0 ≤ q
  · rw [if_pos h, abs_le]
    constructor
    · have := Int.lt_floor_add_one q
      linarith
    · have := Int.floor_le q
      linarith
  · rw [if_neg h, abs_le]
    constructor
    · have := Int.le_ceil q
      linarith
    · have := Int.ceil_lt_add_one q
      linarith

lemma truncQ_mem (q : ℚ) (h1 : -32767 ≤ q) (h2 : q ≤ 32767) :
    -32767 ≤ truncQ q ∧ truncQ q ≤ 32767 := by
  unfold truncQ
  by_cases h : 0 ≤ q
  · rw [if_pos h]
    constructor
    · have h0 : (0 : ℤ) ≤ ⌊q⌋ := Int.floor_nonneg.mpr h
      omega
    · have h3 : ((⌊q⌋ : ℤ) : ℚ) ≤ 32767 := le_trans (Int.floor_le q) h2
      exact_mod_cast h3
  · rw [if_neg h]
    constructor
    · have h3 : (-32767 : ℚ) ≤ ((⌈q⌉ : ℤ) : ℚ) := le_trans h1 (Int.le_ceil q)
      exact_mod_cast h3
    · have hq : q ≤ ((0 : ℤ) : ℚ) := by push_cast; linarith [not_le.mp h]
      have h0 : (⌈q⌉ : ℤ) ≤ 0 := Int.ceil_le.mpr hq
      omega

lemma int16ofInt_id (z : ℤ) (h1 : -32768 ≤ z) (h2 : z ≤ 32767) :
    int16ofInt z = z := by
  unfold int16ofInt
  omega

/-- Claim C4 (confirmed): for every sample in [-1, 1] the conversion to
16-bit PCM performed by the transcription stage round-trips within one
quantization step, the boundary values map exactly to the extreme codes
32767 and -32767, and the stage scales a waveform exactly by mapping
pcmEncode over its samples. -/
theorem c4_pcm_roundtrip :
    (∀ x : ℚ, -1 ≤ x → x ≤ 1 →
        |pcmDecode (pcmEncode x) - x| ≤ 1 / 32767)
    ∧ pcmEncode 1 = 32767
    ∧ pcmEncode (-1) = -32767
    ∧ ∀ (audio : List ℚ) (env : TranscribeEnv),
        (transcribe_audio audio env).scaled = audio.map pcmEncode := by
  refine ⟨?_, ?_, ?_, ?_⟩
  case refine_2 =>
    unfold pcmEncode npInt16 truncQ int16ofInt
    rw [show ((1 : ℚ) * 32767) = ((32767 : ℤ) : ℚ) by norm_num]
    rw [if_pos (by norm_num), Int.floor_intCast]
    decide
  case refine_3 =>
    unfold pcmEncode npInt16 truncQ int16ofInt
    rw [show ((-1 : ℚ) * 32767) = ((-32767 : ℤ) : ℚ) by norm_num]
    rw [if_neg (by norm_num), Int.ceil_intCast]
    decide
  · intro x hx1 hx2
    have hy1 : -32767 ≤ x * 32767 := by linarith
    have hy2 : x * 32767 ≤ 32767 := by linarith
    obtain ⟨hb1, hb2⟩ := truncQ_mem (x * 32767) hy1 hy2
    have henc : pcmEncode x = truncQ (x * 32767) := by
      unfold pcmEncode npInt16
      exact int16ofInt_id _ (by omega) (by omega)
    rw [henc]
    have habs := truncQ_sub_le (x * 32767)
    unfold pcmDecode
    have heq : ((truncQ (x * 32767) : ℤ) : ℚ) / 32767 - x
        = (((truncQ (x * 32767) : ℤ) : ℚ) - x * 32767) / 32767 := by
      ring
    rw [heq, abs_div, show |(32767 : ℚ)| = 32767 by norm_num]
    exact (div_le_div_iff_of_pos_right (by norm_num)).mpr habs
  · intro audio env
    obtain ⟨hw, hr, hu⟩ := env
    cases hw with
    | error e => rfl
    | ok u =>
      cases hr with
      | error e => rfl
      | ok result =>
        cases hu with
        | ok =>
          cases hl : List.lookup "text" result with
          | none => simp [transcribe_audio, hl]
          | some t => simp [transcribe_audio, hl]
        | permissionDenied =>
          cases hl : List.lookup "text" result with
          | none => simp [transcribe_audio, hl]
          | some t => simp [transcribe_audio, hl]
        | otherError => rfl

theorem c4_witness :
    |pcmDecode (pcmEncode (1 / 3)) - 1 / 3| ≤ 1 / 32767 :=
  c4_pcm_roundtrip.1 (1 / 3) (by norm_num) (by norm_num)

end ProjectNeon
